import Mathlib

/-!
Shallow embedding of the SilkLabel annotation tool core (src/main.py):
the region data model, label resolver, zoom clamping, hit-testing,
region mutation operations, class-catalog loading, save logic, and the
serpentine board-layout assignment.  Python floats are modelled as `ℚ`,
Python ints as `ℤ`, dict-shaped region records as structures.
-/

/-! ## Python-primitive helpers -/

/-- Python `min(a, b)` on numbers: returns `b` only when strictly smaller. -/
def pyMin (a b : ℚ) : ℚ := if b < a then b else a

/-- Python `max(a, b)` on numbers: returns `b` only when strictly larger. -/
def pyMax (a b : ℚ) : ℚ := if a < b then b else a

/-- Python `int(x)` on a float/rational: truncation toward zero. -/
def pyTrunc (q : ℚ) : Int := if 0 ≤ q then ⌊q⌋ else ⌈q⌉

/-- Split a character list on a separator, Python `str.split(sep)` style
(empty segments are kept). -/
def splitCh (sep : Char) : List Char → List (List Char)
  | [] => [[]]
  | c :: cs =>
    let rest := splitCh sep cs
    if c = sep then [] :: rest
    else match rest with
      | [] => [[c]]
      | r :: rs => (c :: r) :: rs

/-- Split a character list at the first occurrence of a separator,
Python `str.split(sep, 1)`: the part before, and (if the separator occurs)
the part after. -/
def splitOnceCh (sep : Char) : List Char → List Char × Option (List Char)
  | [] => ([], none)
  | c :: cs =>
    if c = sep then ([], some cs)
    else
      let r := splitOnceCh sep cs
      (c :: r.1, r.2)

/-- Remove leading and trailing characters satisfying `pred`,
Python `str.strip` style. -/
def stripList (pred : Char → Bool) (cs : List Char) : List Char :=
  ((cs.dropWhile pred).reverse.dropWhile pred).reverse

def isPySpace (c : Char) : Bool := c = ' ' || c = '\t' || c = '\n' || c = '\r'

/-- Digits of a character list as a natural number; `none` when empty or
when any character is not a digit. -/
def digitsToNat : List Char → Option Nat
  | [] => none
  | cs => cs.foldl
      (fun acc c =>
        acc.bind fun n => if c.isDigit then some (10 * n + (c.toNat - 48)) else none)
      (some 0)

/-- Python `int(s)` on a string: strip whitespace, optional sign, digits;
`none` models the `ValueError` exception. -/
def pyParseInt (s : String) : Option Int :=
  match stripList isPySpace s.data with
  | '-' :: rest => (digitsToNat rest).map fun n => -(n : Int)
  | '+' :: rest => (digitsToNat rest).map fun n => (n : Int)
  | cs => (digitsToNat cs).map fun n => (n : Int)

/-- Python `s.startswith(pre)`. -/
def hasPref (pre s : String) : Bool := List.isPrefixOf pre.data s.data

/-- Python `s.split(sep)` for a one-character separator, as strings. -/
def splitUnderscore (s : String) : List String :=
  (splitCh '_' s.data).map String.mk

/-! ## Data model (spec section 3, `src/main.py` region dicts) -/

/-- One entry of a region's `label_confidence` list. -/
structure LabelConf where
  label : Int
  confidence : ℚ
deriving DecidableEq

/-- One defect annotation (`region` dict in `src/main.py`). -/
structure Region where
  x : Int
  y : Int
  width : Int
  height : Int
  label_confidence : List LabelConf
  final_label_index : Int
  modified_status : Int
  yolo_confidence : ℚ
  isSure : Bool
  imgPath : String
deriving DecidableEq

/-! ## Label resolver (`ImageLabel.get_region_class_id`,
`DetailDialog.get_region_class_id`, src/main.py lines 188-203 / 1070-1085) -/

/-- `get_region_class_id`: the label of the `final_label_index` candidate
when that index is in range, else the first candidate's label when the list
is non-empty, else 11 (non-defect); the unreachable lookup-failure branch
models the `except` fallback returning 11. -/
def get_region_class_id (r : Region) : Int :=
  if 0 ≤ r.final_label_index ∧ r.final_label_index < (r.label_confidence.length : Int) then
    match r.label_confidence[r.final_label_index.toNat]? with
    | some c => c.label
    | none => 11
  else
    match r.label_confidence with
    | [] => 11
    | c :: _ => c.label

/-! ## Zoom clamping (`ImageLabel.wheelEvent` lines 594-609,
`ImageLabel.keyPressEvent` fallbacks lines 634-659,
`DetailDialog._zoom_with_center` lines 1736-1739,
`DetailDialog.zoom_in`/`zoom_out`/`zoom_reset` lines 1698-1763) -/

/-- `max(0.1, min(5.0, z))`, the clamp applied after every zoom update. -/
def clamp_zoom (z : ℚ) : ℚ := pyMax (1/10) (pyMin 5 z)

/-- `wheelEvent` zoom update: multiply by 1.1 on scroll-up (`delta > 0`),
by 0.9 otherwise, then clamp.  The later `< 0.001` check only skips the
redraw; the stored zoom factor is already updated. -/
def wheel_zoom (z : ℚ) (delta : Int) : ℚ :=
  clamp_zoom (if 0 < delta then z * (1 + 1/10) else z * (1 - 1/10))

/-- `_zoom_with_center` zoom-factor update for an arbitrary multiplier. -/
def zoom_with_center (z m : ℚ) : ℚ := clamp_zoom (z * m)

/-- `DetailDialog.zoom_in`: `_zoom_with_center(1.2)`. -/
def zoom_in_op (z : ℚ) : ℚ := zoom_with_center z (12/10)

/-- `DetailDialog.zoom_out`: `_zoom_with_center(0.8)`. -/
def zoom_out_op (z : ℚ) : ℚ := zoom_with_center z (8/10)

/-- `DetailDialog.zoom_reset`: no-op within 0.01 of 1.0, else
`_zoom_with_center(1.0 / zoom_factor)`. -/
def zoom_reset_op (z : ℚ) : ℚ :=
  if |z - 1| < 1/100 then z else zoom_with_center z (1/z)

/-- `keyPressEvent` `+` fallback: `z *= 1.1; z = min(5.0, z)`. -/
def key_zoom_in (z : ℚ) : ℚ := pyMin 5 (z * (11/10))

/-- `keyPressEvent` `-` fallback: `z *= 0.9; z = max(0.1, z)`. -/
def key_zoom_out (z : ℚ) : ℚ := pyMax (1/10) (z * (9/10))

/-! ## Hit-testing (`ImageLabel.mouseReleaseEvent` lines 536-557) -/

/-- Whether the click point lies inside the region's screen-space box:
`int(r.x*scale) <= px <= int(r.x*scale) + int(r.width*scale)` and the same
vertically, boundaries included. -/
def regionContains (scale : ℚ) (px py : Int) (r : Region) : Bool :=
  let x := pyTrunc ((r.x : ℚ) * scale)
  let y := pyTrunc ((r.y : ℚ) * scale)
  let w := pyTrunc ((r.width : ℚ) * scale)
  let h := pyTrunc ((r.height : ℚ) * scale)
  decide (x ≤ px ∧ px ≤ x + w ∧ y ≤ py ∧ py ≤ y + h)

/-- The `for i, region in enumerate(...)` loop with `break`, carrying the
running index. -/
def findRegionAtAux (scale : ℚ) (px py : Int) : List Region → Nat → Option Nat
  | [], _ => none
  | r :: rs, i =>
    if regionContains scale px py r then some i
    else findRegionAtAux scale px py rs (i + 1)

/-- Hit-test of `mouseReleaseEvent`: index of the first region containing
the click point, in stored list order; `none` models the
`region_unselected` emission (also for an empty region list). -/
def findRegionAt (regions : List Region) (scale : ℚ) (px py : Int) : Option Nat :=
  findRegionAtAux scale px py regions 0

/-! ## Region mutation operations (`DetailDialog`, src/main.py) -/

/-- Set the `label` of the candidate at an index
(`label_confidence[final_label_index]['label'] = new_class_id`). -/
def setLabelAt : List LabelConf → Nat → Int → List LabelConf
  | [], _, _ => []
  | c :: cs, 0, v => { c with label := v } :: cs
  | c :: cs, n + 1, v => c :: setLabelAt cs n v

/-- `DetailDialog.on_class_changed` (lines 1538-1577), effect on the
current region: when `final_label_index` is in range, rewrite that
candidate's label and set `modified_status` to 1 unless it is 2; when the
index is out of range only a warning dialog is shown and the region is
unchanged. -/
def on_class_changed (r : Region) (new_class_id : Int) : Region :=
  if 0 ≤ r.final_label_index ∧ r.final_label_index < (r.label_confidence.length : Int) then
    { r with
      label_confidence := setLabelAt r.label_confidence r.final_label_index.toNat new_class_id,
      modified_status := if r.modified_status ≠ 2 then 1 else r.modified_status }
  else r

/-- `DetailDialog.quick_confirm_current_region` (lines 1469-1490), effect
on the current region: set `modified_status` to 1 only when it is not 2. -/
def quick_confirm_current_region (r : Region) : Region :=
  if r.modified_status ≠ 2 then { r with modified_status := 1 } else r

/-- `DetailDialog.on_modify_changed` (lines 1580-1588): the user-chosen
value is written outright. -/
def on_modify_changed (r : Region) (v : Int) : Region :=
  { r with modified_status := v }

/-- `DetailDialog.delete_current_region` (lines 1286-1343): with no valid
selection, warn and change nothing; otherwise `pop` the selected region
and reselect per the code: -1 when the list became empty, the new last
index when the old index now falls outside, else the same index. -/
def delete_current_region (regions : List Region) (cur : Int) : List Region × Int :=
  if cur < 0 ∨ (regions.length : Int) ≤ cur then (regions, cur)
  else
    let rs := regions.eraseIdx cur.toNat
    if rs.isEmpty then (rs, -1)
    else (rs, if (rs.length : Int) ≤ cur then (rs.length : Int) - 1 else cur)

/-- The region dict built by `DetailDialog.add_new_defect_region`
(lines 1396-1424). -/
def new_defect_region (ox oy ow oh : Int) : Region :=
  { x := ox, y := oy, width := ow, height := oh,
    final_label_index := 1,
    imgPath := "",
    isSure := true,
    label_confidence := [⟨11, 1⟩, ⟨1, 1⟩, ⟨11, 1⟩, ⟨11, 1⟩],
    modified_status := 2,
    yolo_confidence := 0 }

/-- `DetailDialog.add_new_defect_region` (lines 1382-1427): divide the
screen-space drag rectangle by the scale factor with `int` truncation and
append the new region. -/
def add_new_defect_region (regions : List Region) (scale : ℚ) (x y w h : Int) : List Region :=
  let ox := pyTrunc ((x : ℚ) / scale)
  let oy := pyTrunc ((y : ℚ) / scale)
  let ow := pyTrunc ((w : ℚ) / scale)
  let oh := pyTrunc ((h : ℚ) / scale)
  regions ++ [new_defect_region ox oy ow oh]

/-! ## Save logic (`DetailDialog.save_changes` lines 1590-1616,
`SilkLabelApp.save_json_data` lines 2212-2222) -/

structure DialogState where
  regions : List Region
  regions_modified : Bool
deriving DecidableEq

/-- `save_changes`: only when the dirty flag is set and the user confirms
is `save_json_data` attempted; `regions_modified` is cleared after a
successful save, and a raised exception is caught leaving the state as it
was.  `save_ok` is the outcome of the `save_json_data` call (false models
a raised I/O error). -/
def save_changes (st : DialogState) (confirm : Bool) (save_ok : Bool) : DialogState :=
  if st.regions_modified then
    if confirm then
      if save_ok then { st with regions_modified := false } else st
    else st
  else st

/-! ## Class catalog loading (`ClassManager.load_classes` lines 24-50) -/

/-- The hardcoded catalog used on `FileNotFoundError` (lines 43-47),
insertion order as written. -/
def default_classes : List (Int × String) :=
  [(0, "废丝"), (1, "大糙"), (2, "粘附糙"), (3, "大长结"), (4, "重螺旋"),
   (5, "小糙"), (6, "长结"), (7, "螺旋"), (8, "环及裂丝"), (9, "特大糙疵"),
   (10, "洁净度"), (11, "非缺陷")]

/-- The catalog used on any other exception (line 50). -/
def fallback_classes : List (Int × String) := [(11, "非缺陷"), (1, "缺陷")]

/-- Python dict assignment `d[k] = v`: overwrite in place, else append. -/
def dictInsert (m : List (Int × String)) (k : Int) (v : String) : List (Int × String) :=
  if m.any fun kv => kv.1 == k then
    m.map fun kv => if kv.1 == k then (k, v) else kv
  else m ++ [(k, v)]

/-- The line loop of `load_classes`: strip each line, skip lines that are
blank or lack a comma, split once on the comma, parse the id with `int`
(a failure models the raised `ValueError`, aborting the whole load), strip
quotes from the name, and insert.  `none` models the raised exception. -/
def parse_class_lines : List String → List (Int × String) → Option (List (Int × String))
  | [], acc => some acc
  | l :: ls, acc =>
    let line := stripList isPySpace l.data
    if line ≠ [] ∧ line.contains ',' then
      match splitOnceCh ',' line with
      | (idPart, some namePart) =>
        match pyParseInt (String.mk idPart) with
        | some cid =>
          parse_class_lines ls
            (dictInsert acc cid (String.mk (stripList (fun c => c = '\"') namePart)))
        | none => none
      | (_, none) => none
    else parse_class_lines ls acc

/-- `load_classes`: `none` input models `FileNotFoundError` (default
catalog); a parse failure models the generic `except Exception` branch
(two-class fallback); otherwise the parsed catalog, built from `{}`. -/
def load_classes (file : Option (List String)) : List (Int × String) :=
  match file with
  | none => default_classes
  | some lines =>
    match parse_class_lines lines [] with
    | some m => m
    | none => fallback_classes

/-! ## Board layout (`BoardView.add_buttons` lines 1948-2067) and
front/back partition (`SilkLabelApp.process_board_data` lines 2404-2431) -/

/-- One `all_pic_info` entry, with the fields the layout uses. -/
structure PicInfo where
  connectButtonName : String
  column : Int
deriving DecidableEq

/-- `extract_number` (lines 1975-1983): the integer after the first `_`,
0 when absent or unparsable. -/
def extract_number (p : PicInfo) : Int :=
  match (splitUnderscore p.connectButtonName).get? 1 with
  | some s => (pyParseInt s).getD 0
  | none => 0

/-- The camera-stream prefix the layout dispatches on. -/
def camera_pref (p : PicInfo) : Option String :=
  if hasPref "p1_" p.connectButtonName then some "p1_"
  else if hasPref "p2_" p.connectButtonName then some "p2_"
  else none

/-- Stable insertion of `x` into a key-sorted list (equal keys keep the
existing elements first), modelling Python's stable `list.sort(key=...)`. -/
def insertByNumber (x : PicInfo) : List PicInfo → List PicInfo
  | [] => [x]
  | y :: ys =>
    if extract_number x ≤ extract_number y then x :: y :: ys
    else y :: insertByNumber x ys

/-- Stable sort by `extract_number`. -/
def sortByNumber : List PicInfo → List PicInfo
  | [] => []
  | x :: xs => insertByNumber x (sortByNumber xs)

/-- `pics_in_column`: same column, same camera prefix, sorted by sequence
number (lines 2008-2009 and the three analogous pairs). -/
def pics_in_column (lst : List PicInfo) (pr : String) (col : Int) : List PicInfo :=
  sortByNumber (lst.filter fun q => decide (q.column = col) && hasPref pr q.connectButtonName)

/-- Python `list.index`: position of the first equal element. -/
def pyIndex (x : PicInfo) : List PicInfo → Nat
  | [] => 0
  | y :: ys => if y = x then 0 else 1 + pyIndex x ys

/-- The columns whose capture direction is flipped (lines 2013, 2026,
2044, 2057). -/
def flip_columns : List Int := [3, 4, 7, 8]

/-- Row/column cell computed by the body of `add_buttons` for one entry:
`none` when the name matches neither camera prefix (the code would leave
`row` unbound); otherwise row 1 when the entry is missing from its own
column list, else the serpentine row from the 0-based position in the
per-camera sorted column, and grid column `column - 1`. -/
def add_buttons_cell (is_front : Bool) (lst : List PicInfo) (p : PicInfo) : Option (Int × Int) :=
  match camera_pref p with
  | none => none
  | some pr =>
    let pics := pics_in_column lst pr p.column
    let row : Int :=
      if p ∈ pics then
        let idx : Int := (pyIndex p pics : Nat)
        if is_front then
          if p.column ∈ flip_columns then idx + 1 else 5 - idx
        else
          if p.column ∈ flip_columns then 5 - idx else idx + 1
      else 1
    some (row, p.column - 1)

/-- `is_front` detection of `add_buttons` (lines 1986-1989): from the
first entry's extracted number. -/
def board_is_front (lst : List PicInfo) : Bool :=
  match lst with
  | [] => true
  | p :: _ => decide (extract_number p ≤ 25)

/-- The whole `add_buttons` placement pass: every entry with its grid
cell. -/
def add_buttons_layout (lst : List PicInfo) : List (PicInfo × Option (Int × Int)) :=
  lst.map fun p => (p, add_buttons_cell (board_is_front lst) lst p)

/-- Rows assigned to the entries of one column, in input order. -/
def rows_in_col (lst : List PicInfo) (col : Int) : List (Option Int) :=
  (lst.filter fun p => decide (p.column = col)).map
    fun p => (add_buttons_cell (board_is_front lst) lst p).map Prod.fst

/-- The sequence number `int(button_name.split('_')[1])` used by
`process_board_data`; `none` models the caught `ValueError`/`IndexError`. -/
def seq_number (p : PicInfo) : Option Int :=
  match (splitUnderscore p.connectButtonName).get? 1 with
  | some s => pyParseInt s
  | none => none

/-- `process_board_data` front/back partition (lines 2404-2431): the p1
and p2 branches are textually identical, entries with another prefix, an
unparsable suffix, or a number outside 1-50 are silently skipped
(`pass`). -/
def process_board_data : List PicInfo → List PicInfo × List PicInfo
  | [] => ([], [])
  | p :: rest =>
    let pr := process_board_data rest
    if hasPref "p1_" p.connectButtonName || hasPref "p2_" p.connectButtonName then
      match seq_number p with
      | some n =>
        if 1 ≤ n ∧ n ≤ 25 then (p :: pr.1, pr.2)
        else if 26 ≤ n ∧ n ≤ 50 then (pr.1, p :: pr.2)
        else pr
      | none => pr
    else pr

/-- Whether `process_board_data` keeps an entry on either board. -/
def board_keeps (p : PicInfo) : Bool :=
  (hasPref "p1_" p.connectButtonName || hasPref "p2_" p.connectButtonName) &&
    match seq_number p with
    | some n => decide (1 ≤ n ∧ n ≤ 50)
    | none => false

/-! ## Theorems -/

/-- C1: `get_region_class_id` follows the spec's resolution rule: it
returns `label_confidence[final_label_index].label` when the index is in
range, else `label_confidence[0].label` when the list is non-empty, else
the non-defect id 11 — for any `final_label_index` (negative or past the
end included) and any `label_confidence` (empty included), as a total
function. -/
theorem get_region_class_id_spec (r : Region) :
    (∀ (i : Nat) (c : LabelConf), r.final_label_index = (i : Int) →
      r.label_confidence[i]? = some c → get_region_class_id r = c.label) ∧
    ((r.final_label_index < 0 ∨ (r.label_confidence.length : Int) ≤ r.final_label_index) →
      ∀ c cs, r.label_confidence = c :: cs → get_region_class_id r = c.label) ∧
    (r.label_confidence = [] → get_region_class_id r = 11) := by
  refine ⟨?_, ?_, ?_⟩
  · intro i c hi hc
    have hlen : i < r.label_confidence.length := by
      rcases List.getElem?_eq_some.mp hc with ⟨h, _⟩
      exact h
    rw [get_region_class_id, if_pos]
    · rw [hi, Int.toNat_natCast, hc]
    · constructor
      · rw [hi]; exact Int.natCast_nonneg i
      · rw [hi]; exact_mod_cast hlen
  · intro hout c cs hlc
    rw [get_region_class_id, if_neg, hlc]
    rintro ⟨h0, hlt⟩
    rcases hout with h | h
    · omega
    · omega
  · intro hlc
    rw [get_region_class_id, if_neg, hlc]
    rintro ⟨h0, hlt⟩
    rw [hlc] at hlt
    simp at hlt
    omega

/-- Witness for C1 at a concrete region. -/
theorem get_region_class_id_spec_witness :
    get_region_class_id
      { x := 0, y := 0, width := 1, height := 1,
        label_confidence := [⟨7, 1⟩, ⟨3, 1/2⟩], final_label_index := 1,
        modified_status := 0, yolo_confidence := 0, isSure := true, imgPath := "" } = 3 :=
  (get_region_class_id_spec _).1 1 ⟨3, 1/2⟩ rfl rfl

/-- C3: `modified_status` never leaves Added (2) through a class-change
edit or a quick-confirm — both set it to 1 only when it is not 2 — while
the direct status override writes whatever value the user chose. -/
theorem modified_status_added_preserved (r : Region) (c v : Int) :
    (r.modified_status = 2 →
      (on_class_changed r c).modified_status = 2 ∧
      (quick_confirm_current_region r).modified_status = 2) ∧
    (r.modified_status ≠ 2 →
      (quick_confirm_current_region r).modified_status = 1 ∧
      (0 ≤ r.final_label_index → r.final_label_index < (r.label_confidence.length : Int) →
        (on_class_changed r c).modified_status = 1)) ∧
    (on_modify_changed r v).modified_status = v := by
  refine ⟨?_, ?_, rfl⟩
  · intro h2
    constructor
    · rw [on_class_changed]
      split
      · simp [h2]
      · exact h2
    · rw [quick_confirm_current_region, if_neg]
      · exact h2
      · simp [h2]
  · intro hne
    constructor
    · rw [quick_confirm_current_region, if_pos hne]
    · intro h0 hlt
      rw [on_class_changed, if_pos ⟨h0, hlt⟩]
      simp [hne]

/-- Witness for C3 at a concrete Added region. -/
theorem modified_status_added_preserved_witness :
    (on_class_changed
      { x := 0, y := 0, width := 1, height := 1,
        label_confidence := [⟨5, 1⟩], final_label_index := 0,
        modified_status := 2, yolo_confidence := 0, isSure := true,
        imgPath := "" } 4).modified_status = 2 :=
  ((modified_status_added_preserved _ 4 0).1 rfl).1

/-- C4: deleting the selected region at index `cur` from a list of length
N removes exactly that element, and reselects the new last element when
`cur` was the last position, the same index otherwise, and none (-1) when
the list became empty (N = 1; note N - 2 = -1 then). -/
theorem delete_current_region_spec (regions : List Region) (cur : Int)
    (h0 : 0 ≤ cur) (hlt : cur < (regions.length : Int)) :
    (delete_current_region regions cur).1
        = regions.take cur.toNat ++ regions.drop (cur.toNat + 1) ∧
    (delete_current_region regions cur).2 =
      (if regions.length = 1 then -1
       else if cur = (regions.length : Int) - 1 then (regions.length : Int) - 2
       else cur) := by
  have hguard : ¬ (cur < 0 ∨ (regions.length : Int) ≤ cur) := by omega
  have hcn : cur.toNat < regions.length := by omega
  have hlen := List.length_eraseIdx_add_one hcn
  have herase := List.eraseIdx_eq_take_drop_succ regions cur.toNat
  rw [delete_current_region, if_neg hguard]
  simp only []
  by_cases hone : regions.length = 1
  · have hempty : (regions.eraseIdx cur.toNat).isEmpty = true := by
      have : (regions.eraseIdx cur.toNat).length = 0 := by omega
      simpa [List.isEmpty_iff_length_eq_zero] using this
    rw [if_pos hempty]
    refine ⟨by rw [← herase], ?_⟩
    rw [if_pos hone]
  · have hnempty : ¬ ((regions.eraseIdx cur.toNat).isEmpty = true) := by
      have : (regions.eraseIdx cur.toNat).length ≠ 0 := by omega
      simpa [List.isEmpty_iff_length_eq_zero] using this
    rw [if_neg hnempty]
    refine ⟨by rw [← herase], ?_⟩
    rw [if_neg hone]
    by_cases hlast : cur = (regions.length : Int) - 1
    · rw [if_pos hlast, if_pos (by omega)]
      omega
    · rw [if_neg hlast, if_neg (by omega)]

/-- A concrete region for witnesses. -/
def sampleRegion (k : Int) : Region :=
  { x := k, y := 0, width := 10, height := 10,
    label_confidence := [⟨5, 1⟩], final_label_index := 0,
    modified_status := 0, yolo_confidence := 0, isSure := true, imgPath := "" }

/-- Witness for C4: deleting the last of three regions keeps the first
two and selects index 1. -/
theorem delete_current_region_spec_witness :
    delete_current_region [sampleRegion 0, sampleRegion 1, sampleRegion 2] 2
      = ([sampleRegion 0, sampleRegion 1], 1) := by
  have h := delete_current_region_spec [sampleRegion 0, sampleRegion 1, sampleRegion 2] 2
    (by decide) (by decide)
  exact Prod.ext (by simpa using h.1) (by simpa using h.2)

/-- C5: a completed drag appends one region whose image-space rectangle is
the screen rectangle divided by the scale factor, with
`modified_status = 2`, `final_label_index = 1`, `yolo_confidence = 0`, and
the 4-entry candidate list `[11, 1, 11, 11]` (index 1 the user slot,
defaulted to the generic defect class 1); a 40x30 drag at zoom 2.0 yields
image-space width 20 and height 15. -/
theorem add_new_defect_region_spec (regions : List Region) (scale : ℚ) (x y w h : Int) :
    add_new_defect_region regions scale x y w h
      = regions ++ [new_defect_region (pyTrunc ((x : ℚ) / scale)) (pyTrunc ((y : ℚ) / scale))
          (pyTrunc ((w : ℚ) / scale)) (pyTrunc ((h : ℚ) / scale))] ∧
    (∀ ox oy ow oh : Int,
      (new_defect_region ox oy ow oh).modified_status = 2 ∧
      (new_defect_region ox oy ow oh).final_label_index = 1 ∧
      (new_defect_region ox oy ow oh).yolo_confidence = 0 ∧
      (new_defect_region ox oy ow oh).label_confidence.map LabelConf.label = [11, 1, 11, 11] ∧
      (new_defect_region ox oy ow oh).width = ow ∧
      (new_defect_region ox oy ow oh).height = oh) ∧
    (add_new_defect_region regions 2 x y 40 30).getLast?
      = some (new_defect_region (pyTrunc ((x : ℚ) / 2)) (pyTrunc ((y : ℚ) / 2)) 20 15) := by
  refine ⟨rfl, fun ox oy ow oh => ⟨rfl, rfl, rfl, rfl, rfl, rfl⟩, ?_⟩
  have h40 : pyTrunc (((40 : Int) : ℚ) / 2) = 20 := by norm_num [pyTrunc]
  have h30 : pyTrunc (((30 : Int) : ℚ) / 2) = 15 := by norm_num [pyTrunc]
  rw [add_new_defect_region]
  simp only [h40, h30]
  exact List.getLast?_concat _

/-- Witness for C5 on an empty region list and a drag at the origin. -/
theorem add_new_defect_region_spec_witness :
    (add_new_defect_region [] 2 0 0 40 30).getLast?
      = some (new_defect_region (pyTrunc (((0 : Int) : ℚ) / 2)) (pyTrunc (((0 : Int) : ℚ) / 2)) 20 15) :=
  (add_new_defect_region_spec [] 2 0 0 40 30).2.2

/-- The clamp keeps every value inside [0.1, 5.0]. -/
theorem clamp_zoom_mem_Icc (q : ℚ) : 1/10 ≤ clamp_zoom q ∧ clamp_zoom q ≤ 5 := by
  unfold clamp_zoom pyMax pyMin
  split_ifs <;> constructor <;> linarith

/-- C6: starting from any zoom factor in [0.1, 5.0], every zoom operation
(wheel step, center zoom with any multiplier, keyboard fallbacks, reset)
lands back in [0.1, 5.0]; zoom-in from 5.0 stays at 5.0 and zoom-out from
0.1 stays at 0.1; every operation is total (clamped, never rejected). -/
theorem zoom_factor_clamped (z m : ℚ) (delta : Int) (hz : 1/10 ≤ z ∧ z ≤ 5) :
    (1/10 ≤ zoom_with_center z m ∧ zoom_with_center z m ≤ 5) ∧
    (1/10 ≤ wheel_zoom z delta ∧ wheel_zoom z delta ≤ 5) ∧
    (1/10 ≤ zoom_reset_op z ∧ zoom_reset_op z ≤ 5) ∧
    (1/10 ≤ key_zoom_in z ∧ key_zoom_in z ≤ 5) ∧
    (1/10 ≤ key_zoom_out z ∧ key_zoom_out z ≤ 5) ∧
    zoom_in_op 5 = 5 ∧ zoom_out_op (1/10) = 1/10 := by
  obtain ⟨hz1, hz2⟩ := hz
  refine ⟨clamp_zoom_mem_Icc _, clamp_zoom_mem_Icc _, ?_, ?_, ?_, ?_, ?_⟩
  · rw [zoom_reset_op]
    split_ifs
    · exact ⟨hz1, hz2⟩
    · exact clamp_zoom_mem_Icc _
  · rw [key_zoom_in, pyMin]
    split_ifs <;> constructor <;> linarith
  · rw [key_zoom_out, pyMax]
    split_ifs <;> constructor <;> linarith
  · norm_num [zoom_in_op, zoom_with_center, clamp_zoom, pyMin, pyMax]
  · norm_num [zoom_out_op, zoom_with_center, clamp_zoom, pyMin, pyMax]

/-- Witness for C6 at zoom factor 1 and multiplier 7. -/
theorem zoom_factor_clamped_witness :
    1/10 ≤ zoom_with_center 1 7 ∧ zoom_with_center 1 7 ≤ 5 :=
  (zoom_factor_clamped 1 7 1 (by norm_num)).1

/-- C9: a failed save leaves the state untouched (dirty flag still set,
regions unchanged); the dirty flag is cleared only by a confirmed,
successful save; no save outcome ever mutates the in-memory regions. -/
theorem save_changes_spec (st : DialogState) (confirm ok : Bool) :
    save_changes st confirm false = st ∧
    (save_changes st confirm ok).regions = st.regions ∧
    ((save_changes st confirm ok).regions_modified = false →
      st.regions_modified = false ∨ (confirm = true ∧ ok = true)) ∧
    (st.regions_modified = true →
      (save_changes st true true).regions_modified = false) := by
  rcases st with ⟨rs, m⟩
  cases m <;> cases confirm <;> cases ok <;> simp [save_changes]

/-- Witness for C9: a dirty state survives a failed save. -/
theorem save_changes_spec_witness :
    save_changes ⟨[], true⟩ true false = (⟨[], true⟩ : DialogState) :=
  (save_changes_spec ⟨[], true⟩ true false).1

/-- The loop of `findRegionAtAux` returns the first contained index at or
after its accumulator. -/
theorem findRegionAtAux_some_spec (scale : ℚ) (px py : Int) :
    ∀ (rs : List Region) (i k : Nat), findRegionAtAux scale px py rs i = some k →
      ∃ j, k = i + j ∧ j < rs.length ∧
        (∃ r, rs[j]? = some r ∧ regionContains scale px py r = true) ∧
        (∀ j2, j2 < j → ∀ r2, rs[j2]? = some r2 → regionContains scale px py r2 = false) := by
  intro rs
  induction rs with
  | nil => intro i k h; simp [findRegionAtAux] at h
  | cons r rs ih =>
    intro i k h
    rw [findRegionAtAux] at h
    by_cases hc : regionContains scale px py r = true
    · rw [if_pos hc] at h
      obtain rfl : i = k := Option.some.inj h
      refine ⟨0, by omega, by simp, ⟨r, by simp, hc⟩, ?_⟩
      · intro j2 hj2
        omega
    · rw [if_neg hc] at h
      obtain ⟨j, hk, hjlen, ⟨r2, hr2, hc2⟩, hall⟩ := ih (i + 1) k h
      refine ⟨j + 1, by omega, by simp; omega, ⟨r2, by simpa using hr2, hc2⟩, ?_⟩
      intro j2 hj2 r3 hr3
      match j2, hj2 with
      | 0, _ =>
        simp at hr3
        subst hr3
        exact Bool.not_eq_true _ ▸ Bool.eq_false_iff.mpr hc
      | j2 + 1, hj2 =>
        exact hall j2 (by omega) r3 (by simpa using hr3)

/-- When the loop finds nothing, no region contains the point. -/
theorem findRegionAtAux_none_spec (scale : ℚ) (px py : Int) :
    ∀ (rs : List Region) (i : Nat), findRegionAtAux scale px py rs i = none →
      ∀ (j : Nat) (r : Region), rs[j]? = some r → regionContains scale px py r = false := by
  intro rs
  induction rs with
  | nil => intro i _ j r hr; simp at hr
  | cons r0 rs ih =>
    intro i h j r hr
    rw [findRegionAtAux] at h
    by_cases hc : regionContains scale px py r0 = true
    · rw [if_pos hc] at h; exact absurd h (by simp)
    · rw [if_neg hc] at h
      match j with
      | 0 =>
        simp at hr
        subst hr
        exact Bool.eq_false_iff.mpr hc
      | j + 1 =>
        exact ih (i + 1) h j r (by simpa using hr)

/-- C7: the hit-test returns the index of the first region (in stored
list order) whose screen-space box contains the point — so the earlier
index always wins on overlap — and emits the unselected outcome (`none`)
exactly when no region contains the point (empty list included). -/
theorem findRegionAt_first_match (regions : List Region) (scale : ℚ) (px py : Int) :
    (∀ k, findRegionAt regions scale px py = some k →
      k < regions.length ∧
      (∃ r, regions[k]? = some r ∧ regionContains scale px py r = true) ∧
      (∀ j, j < k → ∀ rj, regions[j]? = some rj → regionContains scale px py rj = false)) ∧
    (findRegionAt regions scale px py = none →
      ∀ (j : Nat) (rj : Region), regions[j]? = some rj →
        regionContains scale px py rj = false) := by
  constructor
  · intro k h
    obtain ⟨j, hk, hjlen, hex, hall⟩ := findRegionAtAux_some_spec scale px py regions 0 k h
    have hkj : k = j := by omega
    subst hkj
    exact ⟨hjlen, hex, hall⟩
  · intro h j rj hj
    exact findRegionAtAux_none_spec scale px py regions 0 h j rj hj

/-- Witness for C7: two identical overlapping regions, the click resolves
to index 0. -/
theorem findRegionAt_first_match_witness :
    0 < ([sampleRegion 0, sampleRegion 0] : List Region).length ∧
    (∃ r, ([sampleRegion 0, sampleRegion 0] : List Region)[0]? = some r ∧
      regionContains 1 5 5 r = true) ∧
    (∀ j, j < 0 → ∀ rj, ([sampleRegion 0, sampleRegion 0] : List Region)[j]? = some rj →
      regionContains 1 5 5 rj = false) := by
  have heval : findRegionAt [sampleRegion 0, sampleRegion 0] 1 5 5 = some 0 := by
    norm_num [findRegionAt, findRegionAtAux, regionContains, pyTrunc, sampleRegion]
  exact (findRegionAt_first_match [sampleRegion 0, sampleRegion 0] 1 5 5).1 0 heval

/-- Whether a column's capture direction is flipped. -/
def flipb (col : Int) : Bool := decide (col ∈ flip_columns)

/-- The serpentine row rule as the spec states it: on the front side the
flipped columns {3,4,7,8} run top-to-bottom (`pos + 1`), the others
bottom-to-top (`5 - pos`); on the back side the parity is inverted. -/
def serpentine_row (is_front : Bool) (col : Int) (pos : Nat) : Int :=
  if flipb col = is_front then (pos : Int) + 1 else 5 - (pos : Int)

/-- Front-side entries: 5 sequential images in column 1 and 5 in
column 3. -/
def example_front : List PicInfo :=
  [⟨"p1_1", 1⟩, ⟨"p1_2", 1⟩, ⟨"p1_3", 1⟩, ⟨"p1_4", 1⟩, ⟨"p1_5", 1⟩,
   ⟨"p1_6", 3⟩, ⟨"p1_7", 3⟩, ⟨"p1_8", 3⟩, ⟨"p1_9", 3⟩, ⟨"p1_10", 3⟩]

/-- C2: `add_buttons` places every camera-prefixed entry at grid column
`column - 1` with the serpentine row determined by its 0-based position in
the per-camera sorted sequence of its column (front: columns {3,4,7,8}
top-to-bottom, the rest bottom-to-top; back inverted); with front-side
entries of 5 sequential images each, column 1 yields rows [5,4,3,2,1] and
column 3 yields rows [1,2,3,4,5]. -/
theorem add_buttons_serpentine :
    (∀ (is_front : Bool) (lst : List PicInfo) (p : PicInfo) (pr : String),
      camera_pref p = some pr →
      p ∈ pics_in_column lst pr p.column →
      add_buttons_cell is_front lst p
        = some (serpentine_row is_front p.column (pyIndex p (pics_in_column lst pr p.column)),
            p.column - 1)) ∧
    rows_in_col example_front 1 = [some 5, some 4, some 3, some 2, some 1] ∧
    rows_in_col example_front 3 = [some 1, some 2, some 3, some 4, some 5] := by
  refine ⟨?_, by decide, by decide⟩
  intro is_front lst p pr hpr hmem
  rw [add_buttons_cell, hpr]
  simp only [if_pos hmem]
  cases is_front <;> by_cases hc : p.column ∈ flip_columns <;>
    simp [serpentine_row, flipb, hc]

/-- Witness for C2: the first column-1 entry sits at the serpentine row
for position 0 of the front side, grid column 0. -/
theorem add_buttons_serpentine_witness :
    add_buttons_cell true example_front (⟨"p1_1", 1⟩ : PicInfo)
      = some (serpentine_row true 1
          (pyIndex ⟨"p1_1", 1⟩ (pics_in_column example_front "p1_" 1)), 0) :=
  add_buttons_serpentine.1 true example_front ⟨"p1_1", 1⟩ "p1_" (by decide) (by decide)

/-- Counterexample to C8 as stated: a present-but-malformed catalog file
(a line whose id is not an integer) does NOT yield the 12-class default
catalog — the generic exception branch substitutes the 2-class fallback
instead. -/
theorem load_classes_malformed_counterexample :
    ¬ (load_classes (some ["abc,def"]) = default_classes) := by decide

/-- C8 (amended): absence of the catalog file substitutes the fixed
12-class catalog (ids 0-11, id 10 = cleanliness, id 11 = non-defect), but
a parse failure substitutes the 2-class fallback {11: non-defect,
1: defect}; a successful parse yields exactly the parsed mapping. -/
theorem load_classes_fallback_spec :
    load_classes none = default_classes ∧
    (∀ lines, parse_class_lines lines [] = none →
      load_classes (some lines) = fallback_classes) ∧
    (∀ lines m, parse_class_lines lines [] = some m → load_classes (some lines) = m) ∧
    default_classes.map Prod.fst = [0, 1, 2, 3, 4, 5, 6, 7, 8, 9, 10, 11] ∧
    (default_classes.lookup 10 = some "洁净度" ∧ default_classes.lookup 11 = some "非缺陷") := by
  refine ⟨rfl, ?_, ?_, by decide, by decide⟩
  · intro lines h
    simp only [load_classes, h]
  · intro lines m h
    simp only [load_classes, h]

/-- Witness for C8 (amended): the malformed file from the counterexample
lands on the 2-class fallback. -/
theorem load_classes_fallback_spec_witness :
    load_classes (some ["abc,def"]) = fallback_classes :=
  load_classes_fallback_spec.2.1 ["abc,def"] (by decide)

/-- `process_board_data` keeps an entry on the front board exactly under
this condition (camera prefix, parsable suffix, 1-25). -/
def front_keeps (p : PicInfo) : Bool :=
  (hasPref "p1_" p.connectButtonName || hasPref "p2_" p.connectButtonName) &&
    match seq_number p with
    | some n => decide (1 ≤ n ∧ n ≤ 25)
    | none => false

/-- Back-board condition (camera prefix, parsable suffix, 26-50). -/
def back_keeps (p : PicInfo) : Bool :=
  (hasPref "p1_" p.connectButtonName || hasPref "p2_" p.connectButtonName) &&
    match seq_number p with
    | some n => decide (26 ≤ n ∧ n ≤ 50)
    | none => false

/-- The partition loop is a pair of filters. -/
theorem process_board_data_eq_filter (lst : List PicInfo) :
    process_board_data lst = (lst.filter front_keeps, lst.filter back_keeps) := by
  induction lst with
  | nil => rfl
  | cons p rest ih =>
    rw [process_board_data, ih]
    by_cases hpre :
        (hasPref "p1_" p.connectButtonName || hasPref "p2_" p.connectButtonName) = true
    · cases hseq : seq_number p with
      | none => simp [List.filter_cons, front_keeps, back_keeps, hpre, hseq]
      | some n =>
        by_cases h1 : 1 ≤ n ∧ n ≤ 25
        · have h2 : ¬ (26 ≤ n ∧ n ≤ 50) := by omega
          simp [List.filter_cons, front_keeps, back_keeps, hpre, hseq, h1, h2]
        · by_cases h2 : 26 ≤ n ∧ n ≤ 50
          · simp [List.filter_cons, front_keeps, back_keeps, hpre, hseq, h1, h2]
          · simp [List.filter_cons, front_keeps, back_keeps, hpre, hseq, h1, h2]
    · simp [List.filter_cons, front_keeps, back_keeps, hpre]

/-- An entry survives onto either board exactly when `board_keeps`. -/
theorem board_keeps_eq_or (p : PicInfo) :
    board_keeps p = (front_keeps p || back_keeps p) := by
  rw [board_keeps, front_keeps, back_keeps]
  cases hseq : seq_number p with
  | none => simp [hseq]
  | some n =>
    simp only [hseq]
    by_cases h1 : 1 ≤ n ∧ n ≤ 25
    · have h50 : 1 ≤ n ∧ n ≤ 50 := by omega
      have h2 : ¬ (26 ≤ n ∧ n ≤ 50) := by omega
      simp [h1, h2, h50]
      tauto
    · by_cases h2 : 26 ≤ n ∧ n ≤ 50
      · have h50 : 1 ≤ n ∧ n ≤ 50 := by omega
        simp [h1, h2, h50]
        tauto
      · have h50 : ¬ (1 ≤ n ∧ n ≤ 50) := by omega
        simp [h1, h2, h50]

/-- C10: an entry of `all_pic_info` whose `connectButtonName` lacks a
`p1_`/`p2_` prefix, whose suffix is not a parsable integer, or whose
number lies outside 1-50, appears on neither the front nor the back board
(the loop skips it with `pass`, producing no warning); every other entry
appears on exactly the board its number selects. -/
theorem process_board_data_partition (lst : List PicInfo) (p : PicInfo) (hmem : p ∈ lst) :
    ((p ∈ (process_board_data lst).1 ∨ p ∈ (process_board_data lst).2) ↔
      board_keeps p = true) ∧
    (board_keeps p = false →
      p ∉ (process_board_data lst).1 ∧ p ∉ (process_board_data lst).2) := by
  rw [process_board_data_eq_filter]
  constructor
  · simp [List.mem_filter, hmem, board_keeps_eq_or]
  · intro hfalse
    have hor := board_keeps_eq_or p
    rw [hfalse] at hor
    have hf : front_keeps p = false := by
      cases hf : front_keeps p
      · rfl
      · rw [hf] at hor; simp at hor
    have hb : back_keeps p = false := by
      cases hb : back_keeps p
      · rfl
      · rw [hb] at hor; simp at hor
    constructor <;> intro hin
    · have hkeep := (List.mem_filter.mp hin).2
      rw [hf] at hkeep
      exact Bool.false_ne_true hkeep
    · have hkeep := (List.mem_filter.mp hin).2
      rw [hb] at hkeep
      exact Bool.false_ne_true hkeep

/-- Witness for C10: a malformed entry is excluded from both boards
silently. -/
theorem process_board_data_partition_witness :
    (⟨"bogus", 2⟩ : PicInfo) ∉ (process_board_data [⟨"p1_7", 1⟩, ⟨"bogus", 2⟩]).1 ∧
    (⟨"bogus", 2⟩ : PicInfo) ∉ (process_board_data [⟨"p1_7", 1⟩, ⟨"bogus", 2⟩]).2 :=
  (process_board_data_partition [⟨"p1_7", 1⟩, ⟨"bogus", 2⟩] ⟨"bogus", 2⟩
    (by decide)).2 (by decide)
